import Mathlib

/-!
A verification development for the catapulta deployment pipeline.

The Rust sources are shallowly embedded: the descriptor types (`App`,
`Caddy`, `Upstream`) become Lean structures, the pure renderers become
Lean functions on those structures, fallible operations return
`Option`/`Except`, and the effectful pipeline commands become functions
that also produce an explicit trace of collaborator events.  Machine
integers (`u16` ports, `u32` attempt counters) are embedded as `Nat`:
the code only stores and compares them, never performs wrapping
arithmetic on them.
-/

namespace Catapulta

/-- Embeds `Upstream` from `src/app.rs`: a resolved container-name +
port pair. -/
structure Upstream where
  name : String
  port : Nat
deriving DecidableEq, Repr

/-- Embeds `Upstream`'s `Display` impl from `src/app.rs`:
`"{name}:{port}"`. -/
def Upstream.render (u : Upstream) : String :=
  u.name ++ ":" ++ toString u.port

/-- Embeds the `App` struct from `src/app.rs`.  Field-for-field: name,
dockerfile, platform, build args, env pairs, optional env file path,
(volume-name, mount-path) pairs, exposed container ports, published
(host, container) port pairs, optional healthcheck command, optional
build context. -/
structure App where
  name : String
  dockerfile : String := "Dockerfile"
  platform : String := "linux/amd64"
  build_args : List (String × String) := []
  env : List (String × String) := []
  env_file : Option String := none
  volumes : List (String × String) := []
  expose : List Nat := []
  ports : List (Nat × Nat) := []
  healthcheck : Option String := none
  context : Option String := none
deriving DecidableEq, Repr

/-- Embeds `App::upstream` from `src/app.rs`.  The Rust function
panics when no port has been exposed; the panic is embedded as
`none`. -/
def App.upstream (a : App) : Option Upstream :=
  a.expose.head?.map (fun p => { name := a.name, port := p })

/-- Embeds `App::upstream_port` from `src/app.rs`.  The Rust function
asserts that `port` is in the exposed list and panics otherwise; the
panic is embedded as `none`. -/
def App.upstream_port (a : App) (port : Nat) : Option Upstream :=
  if a.expose.contains port then some { name := a.name, port := port }
  else none

/-- Embeds the `Caddy` struct from `src/caddy.rs`: optional basic-auth
(user, password-hash) pair, optional default upstream, (path-pattern,
upstream) routes, gzip and security-header flags, raw extra
directives, and (host-path-or-name, container-path) volume pairs. -/
structure Caddy where
  basic_auth : Option (String × String) := none
  reverse_proxy : Option String := none
  routes : List (String × String) := []
  gzip : Bool := false
  security_headers : Bool := false
  extra_directives : List String := []
  volumes : List (String × String) := []
deriving DecidableEq, Repr

/-- Embeds `Caddy::has_upstreams` from `src/caddy.rs`:
`reverse_proxy.is_some() || !routes.is_empty()`. -/
def Caddy.has_upstreams (c : Caddy) : Bool :=
  c.reverse_proxy.isSome || !c.routes.isEmpty

end Catapulta

namespace Catapulta
namespace Caddyfile

/-- Modelled from the spec: the directive lines produced by the
basic-auth step of the proxy-config renderer (§4.3 step 2).  The
`SiteBlock::basic_auth` builder lives in the `caddyfile_rs` crate,
which is not under `src/`; the spec requires an auth gate that matches
all paths except the ACME challenge well-known path and checks the
username against the password hash, and the repository's tests pin the
tokens `@protected`, `basic_auth @protected`,
`/.well-known/acme-challenge/*` and `<user> <hash>`. -/
def basicAuthLines (user hash : String) : List String :=
  [ "@protected not path /.well-known/acme-challenge/*",
    "basic_auth @protected \x7b",
    "\t" ++ user ++ " " ++ hash,
    "\x7d" ]

/-- Modelled from the spec: the fixed security-header block (§4.3
step 5; `SiteBlock::security_headers` of `caddyfile_rs`, not under
`src/`).  The repository's tests pin the four header names and the
quoted values for the first two. -/
def securityHeaderLines : List String :=
  [ "header \x7b",
    "\tX-Content-Type-Options \"nosniff\"",
    "\tX-Frame-Options \"DENY\"",
    "\tX-XSS-Protection \"1; mode=block\"",
    "\tReferrer-Policy \"strict-origin-when-cross-origin\"",
    "\x7d" ]

/-- Modelled from the spec: `caddyfile_rs::format` on a single site
block (grammar fixed by §6 and by the byte-pinned round-trip test in
`tests/caddyfile.rs`): the domain opens a brace block, every directive
line is indented with one tab, and the block closes with `}`. -/
def siteFormat (domain : String) (ls : List String) : List String :=
  (domain ++ " \x7b") :: (ls.map (fun l => "\t" ++ l) ++ ["\x7d"])

/-- Embeds `render` from `src/caddyfile.rs`, as the list of lines of
the emitted document.  The if-chain follows the source exactly:
basic-auth, then the default `reverse_proxy` upstream, then gzip, then
security headers, then raw extra directives.  The source never reads
`caddy.routes`. -/
def renderLines (c : Caddy) (domain : String) : List String :=
  let ls : List String := []
  let ls := match c.basic_auth with
    | some (user, hash) => ls ++ basicAuthLines user hash
    | none => ls
  let ls := match c.reverse_proxy with
    | some up => ls ++ ["reverse_proxy " ++ up]
    | none => ls
  let ls := if c.gzip then ls ++ ["encode gzip"] else ls
  let ls := if c.security_headers then ls ++ securityHeaderLines else ls
  let ls := ls ++ c.extra_directives
  siteFormat domain ls

/-- Embeds `render` from `src/caddyfile.rs` as the emitted text: the
lines joined by newlines with a trailing newline (pinned by the
round-trip test in `tests/caddyfile.rs`). -/
def render (c : Caddy) (domain : String) : String :=
  String.intercalate "\n" (renderLines c domain) ++ "\n"

end Caddyfile

/-- The spec's validity invariant for identifier-like names ("name is
non-empty and must be a valid hostname/container-name token"):
non-empty, alphanumerics and `-` only. -/
def hostnameToken (s : String) : Bool :=
  !s.isEmpty && s.data.all (fun c => c.isAlphanum || c == '-')

/-- A string that fits on one line of a rendered text document. -/
def noNL (s : String) : Bool :=
  !s.data.contains '\n'

/-- The well-formedness assumption under which the manifest round
trip is stated: the app name and volume names satisfy the spec's
hostname-token invariant, and every other string rendered into the
manifest is newline-free (so the document's line structure is exactly
its structural nesting). -/
def App.wellFormedCompose (a : App) : Bool :=
  hostnameToken a.name
  && a.volumes.all (fun v => hostnameToken v.1 && noNL v.2)
  && a.env.all (fun e => noNL e.1 && noNL e.2)
  && (match a.env_file with | some ef => noNL ef | none => true)
  && (match a.healthcheck with | some c => noNL c | none => true)

/-- Splits a character list into its `/`-separated chunks (the
separator is dropped; empty chunks are kept).  Helper for the
embedding of Rust `Path::file_name`. -/
def splitPath : List Char → List (List Char)
  | [] => [[]]
  | c :: rest =>
    if c = '/' then [] :: splitPath rest
    else
      match splitPath rest with
      | g :: gs => (c :: g) :: gs
      | [] => [[c]]

/-- Embeds Rust `Path::file_name` (composed with the always-successful
UTF-8 `to_str`) for the Unix-style path strings this code handles:
the final path component, or `none` when the path is empty, is only
separators and `.` components, or ends in a `..` component.  Empty
and `.` components are skipped, matching `std::path::Components`. -/
def fileName (p : String) : Option String :=
  match ((splitPath p.data).filter
      (fun g => !(g.isEmpty || g == ['.']))).getLast? with
  | some g => if g = ['.', '.'] then none else some (String.mk g)
  | none => none

namespace Compose

/-- Embeds `docker_compose_types::Healthcheck` as instantiated by
`app_service` in `src/compose.rs`. -/
structure Healthcheck where
  test : List String
  interval : String
  timeout : String
  retries : Nat
  start_period : String
deriving DecidableEq, Repr

/-- Embeds the subset of `docker_compose_types::Service` populated by
`src/compose.rs`: every field set by `caddy_service` or `app_service`;
fields both leave at `Default::default()` are omitted.  `depends_on`
entries are (service-name, condition) pairs. -/
structure Service where
  image : Option String := none
  container_name : Option String := none
  restart : Option String := none
  ports : List String := []
  expose : List String := []
  env_file : Option String := none
  environment : List String := []
  volumes : List String := []
  healthcheck : Option Healthcheck := none
  depends_on : List (String × String) := []
  networks : List String := []
deriving DecidableEq, Repr

/-- Embeds `indexmap::IndexMap::insert`: replace in place when the key
is already present, append otherwise. -/
def imInsert {α : Type} (m : List (String × α)) (k : String) (v : α) :
    List (String × α) :=
  if m.any (fun e => e.1 = k) then
    m.map (fun e => if e.1 = k then (e.1, v) else e)
  else m ++ [(k, v)]

/-- Embeds `caddy_service` from `src/compose.rs`. -/
def caddy_service (app : App) : Service :=
  { image := some "caddy:2-alpine",
    container_name := some (app.name ++ "-caddy"),
    restart := some "unless-stopped",
    ports := ["80:80", "443:443"],
    volumes := ["./Caddyfile:/etc/caddy/Caddyfile:ro",
                "caddy-data:/data", "caddy-config:/config"],
    depends_on := [(app.name, "service_healthy")],
    networks := [app.name ++ "-network"] }

/-- Embeds `app_service` from `src/compose.rs`.  The env-file
reference is the `Path::file_name` of the configured path, falling
back to the full path when `file_name` is undefined (the source's
`unwrap_or(ef)`). -/
def app_service (app : App) : Service :=
  { image := some (app.name ++ ":latest"),
    container_name := some app.name,
    restart := some "unless-stopped",
    expose := app.expose.map toString,
    env_file := app.env_file.map (fun ef => (fileName ef).getD ef),
    environment := app.env.map (fun e => e.1 ++ "=" ++ e.2),
    volumes := app.volumes.map (fun v => v.1 ++ ":" ++ v.2),
    healthcheck := app.healthcheck.map (fun cmd =>
      { test := ["CMD", "sh", "-c", cmd],
        interval := "30s", timeout := "10s",
        retries := 3, start_period := "10s" }),
    networks := [app.name ++ "-network"] }

/-- Embeds the services map built inside `render` in
`src/compose.rs`: the caddy service is inserted first, and only when
`caddy.reverse_proxy.is_some()`; the application service is always
inserted. -/
def render_services (app : App) (caddy : Caddy) : List (String × Service) :=
  let m : List (String × Service) := []
  let m := if caddy.reverse_proxy.isSome then
    imInsert m "caddy" (caddy_service app) else m
  imInsert m app.name (app_service app)

/-- Embeds `top_level_volumes` from `src/compose.rs`: one `local`
driver entry per application volume name, plus `caddy-data` and
`caddy-config` when `caddy.reverse_proxy.is_some()`.  The value is
the driver string. -/
def top_level_volumes (app : App) (caddy : Caddy) : List (String × String) :=
  let vols := app.volumes.foldl (fun m v => imInsert m v.1 "local") []
  if caddy.reverse_proxy.isSome then
    imInsert (imInsert vols "caddy-data" "local") "caddy-config" "local"
  else vols

/-- Embeds `network` from `src/compose.rs`: the single shared bridge
network named after the application. -/
def network (app : App) : List (String × String) :=
  [(app.name ++ "-network", "bridge")]

/-- One `key: value` line when the optional field is set (serde_yaml
map-entry form). -/
def optLine (k : String) : Option String → List String
  | some v => [k ++ ": " ++ v]
  | none => []

/-- A `key:` line followed by one `- item` line each, omitted
entirely when the list is empty (serde_yaml sequence form with the
empty-skipping serde attributes of `docker_compose_types`). -/
def listBlock (k : String) : List String → List String
  | [] => []
  | x :: xs => (k ++ ":") :: (x :: xs).map (fun i => "- " ++ i)

/-- The body lines of one service, unindented relative to the service
key; nesting inside the body carries its own two-space steps.  This
mirrors the serde_yaml serialization of the `Service` fields populated
by `src/compose.rs` (the exact scalar lines are pinned by
`tests/compose.rs`: `image: ...`, `interval: 30s`,
`condition: service_healthy`, ...). -/
def serviceLines (s : Service) : List String :=
  optLine "image" s.image
  ++ optLine "container_name" s.container_name
  ++ optLine "restart" s.restart
  ++ listBlock "ports" s.ports
  ++ listBlock "expose" s.expose
  ++ optLine "env_file" s.env_file
  ++ listBlock "environment" s.environment
  ++ listBlock "volumes" s.volumes
  ++ (match s.healthcheck with
      | some hc =>
        ["healthcheck:", "  test:"]
        ++ hc.test.map (fun t => "  - " ++ t)
        ++ ["  interval: " ++ hc.interval,
            "  timeout: " ++ hc.timeout,
            "  retries: " ++ toString hc.retries,
            "  start_period: " ++ hc.start_period]
      | none => [])
  ++ (match s.depends_on with
      | [] => []
      | ds => "depends_on:" ::
          ds.flatMap (fun d => ["  " ++ d.1 ++ ":",
                                "    condition: " ++ d.2]))
  ++ listBlock "networks" s.networks

/-- The lines of one second-level entry: its two-space-indented key
line followed by its body lines indented by four spaces. -/
def entryLines (e : String × List String) : List String :=
  ("  " ++ e.1 ++ ":") :: e.2.map (fun l => "    " ++ l)

/-- A top-level section of the manifest: the section header at column
zero, then the lines of each entry. -/
def sectionBlock (header : String) (entries : List (String × List String)) :
    List String :=
  (header ++ ":") :: entries.flatMap entryLines

/-- Embeds `render` from `src/compose.rs` as the lines of the emitted
YAML document: the `services` section (always non-empty), the
`volumes` section (omitted when empty), and the `networks` section. -/
def renderLines (app : App) (caddy : Caddy) : List String :=
  let vols := top_level_volumes app caddy
  sectionBlock "services"
      ((render_services app caddy).map (fun e => (e.1, serviceLines e.2)))
  ++ (if vols.isEmpty then [] else
      sectionBlock "volumes"
        (vols.map (fun e => (e.1, ["driver: " ++ e.2]))))
  ++ sectionBlock "networks"
      ((network app).map (fun e => (e.1, ["driver: " ++ e.2])))

/-- Embeds `render` from `src/compose.rs` as the emitted text. -/
def render (app : App) (caddy : Caddy) : String :=
  String.intercalate "\n" (renderLines app caddy) ++ "\n"

/-- Character-level form of `lineKey`. -/
def lineKeyData : List Char → Option String
  | ' ' :: ' ' :: c :: rest =>
    if c = ' ' then none
    else if (c :: rest).getLast? = some ':' then
      some (String.mk ((c :: rest).dropLast))
    else none
  | _ => none

/-- Structural grammar, reading side: the key named by a line indented
by exactly two spaces and ending in a colon (a second-level map key),
if the line has that shape. -/
def lineKey (l : String) : Option String :=
  lineKeyData l.data

/-- Character-level form of `isHeader`. -/
def isHeaderData : List Char → Bool
  | [] => false
  | c :: rest =>
    if c = ' ' then false else decide ((c :: rest).getLast? = some ':')

/-- Structural grammar, reading side: a top-level section header is an
unindented line ending in a colon. -/
def isHeader (l : String) : Bool :=
  isHeaderData l.data

/-- Collects the second-level keys of the current section, stopping at
the next top-level header. -/
def collectKeys : List String → List String
  | [] => []
  | l :: rest =>
    if isHeader l then []
    else
      match lineKey l with
      | some k => k :: collectKeys rest
      | none => collectKeys rest

/-- The second-level keys of the section with the given header, or
`[]` when the document has no such section. -/
def sectionKeys : List String → String → List String
  | [], _ => []
  | l :: rest, header =>
    if l = header ++ ":" then collectKeys rest
    else sectionKeys rest header

/-- The structural model recovered by parsing a rendered manifest:
its service names, named-volume names, and network names. -/
structure ParsedModel where
  services : List String
  volumes : List String
  networks : List String
deriving DecidableEq, Repr

/-- Parses a rendered manifest (as lines) with the structural
grammar: the keys of the `services`, `volumes` and `networks`
sections. -/
def parseManifest (lines : List String) : ParsedModel :=
  { services := sectionKeys lines "services",
    volumes := sectionKeys lines "volumes",
    networks := sectionKeys lines "networks" }

end Compose

/-- Embeds the `DeployError` enum from `src/error.rs`.  `ExitStatus`
and the wrapped io/json error payloads are embedded as data the
claims do not inspect; `HealthcheckTimeout` carries the container
name and the attempt count. -/
inductive DeployError
  | commandFailed (command : String) (status : Int)
  | commandNotFound (cmd : String)
  | sshFailed (msg : String)
  | prerequisiteMissing (msg : String)
  | serverNotFound (msg : String)
  | dnsError (msg : String)
  | envMissing (msg : String)
  | fileNotFound (msg : String)
  | healthcheckTimeout (container : String) (attempts : Nat)
  | other (msg : String)
  | ioError (msg : String)
  | jsonError (msg : String)
deriving DecidableEq, Repr

/-- Embeds Rust `str::trim`: removes leading and trailing whitespace
characters (for the ASCII whitespace these strings contain,
`Char.isWhitespace` coincides with Rust's `char::is_whitespace`). -/
def trimChars (s : String) : String :=
  String.mk (((s.data.dropWhile Char.isWhitespace).reverse.dropWhile
    Char.isWhitespace).reverse)

/-- The fixed `MAX_ATTEMPTS` constant of `wait_healthy` in
`src/deploy/docker_save.rs`. -/
def maxAttempts : Nat := 30

/-- The polled status at attempt `t` reports healthy: the remote
query succeeded and its trimmed output is `healthy` (the
`status.trim() == "healthy"` test of `wait_healthy`). -/
def healthyAt (poll : Nat → Option String) (t : Nat) : Prop :=
  ∃ s, poll t = some s ∧ trimChars s = "healthy"

/-- Embeds the per-application polling loop of `wait_healthy`
(`for attempt in 1..=MAX_ATTEMPTS`).  `poll attempt` is the outcome
of the remote `docker inspect` at that attempt: `some status` when
the command succeeds, `none` when it fails (the source keeps waiting
on failure).  `fuel` counts the attempts still allowed including the
current one; the loop enters at `fuel = maxAttempts`, `attempt = 1`,
so the source's `attempt == MAX_ATTEMPTS` test is `fuel = 1`, i.e.
the recursive call is guarded by `fuel ≠ 0` after the decrement (the
`fuel = 0` entry case is unreachable from `wait_healthy`).  Returns
the number of polls performed and the result. -/
def healthLoop (poll : Nat → Option String) (name : String) :
    Nat → Nat → Except DeployError Unit
  | 0, _ => Except.ok ()
  | fuel + 1, attempt =>
    match poll attempt with
    | some status =>
      if trimChars status = "healthy" then Except.ok ()
      else if fuel = 0 then
        Except.error (DeployError.healthcheckTimeout name maxAttempts)
      else healthLoop poll name fuel (attempt + 1)
    | none =>
      if fuel = 0 then
        Except.error (DeployError.healthcheckTimeout name maxAttempts)
      else healthLoop poll name fuel (attempt + 1)

/-- The number of polls the loop of `healthLoop` performs from the
given fuel and attempt (the same recursion, counting instead of
returning the outcome). -/
def healthPolls (poll : Nat → Option String) : Nat → Nat → Nat
  | 0, _ => 0
  | fuel + 1, attempt =>
    match poll attempt with
    | some status =>
      if trimChars status = "healthy" then 1
      else if fuel = 0 then 1
      else healthPolls poll fuel (attempt + 1) + 1
    | none =>
      if fuel = 0 then 1
      else healthPolls poll fuel (attempt + 1) + 1

/-- The sequential per-application gating of `wait_healthy`: the
first failing application's error is returned. -/
def waitList (polls : String → Nat → Option String) :
    List App → Except DeployError Unit
  | [] => Except.ok ()
  | a :: rest =>
    match healthLoop (polls a.name) a.name maxAttempts 1 with
    | Except.error e => Except.error e
    | Except.ok () => waitList polls rest

/-- Embeds `wait_healthy` from `src/deploy/docker_save.rs`:
applications without a health-check are filtered out; with none left
the function sleeps briefly and succeeds; otherwise each
health-checked application is polled in order.  `polls name attempt`
is the status query outcome for container `name`. -/
def wait_healthy (polls : String → Nat → Option String)
    (apps : List App) : Except DeployError Unit :=
  let withHc := apps.filter (fun a => a.healthcheck.isSome)
  if withHc.isEmpty then Except.ok ()
  else waitList polls withHc

/-- The collaborator actions recorded by the deploy-path embedding.
`rsyncImage`, `loadImage`, `writeRemoteFile`, `scpFile` and
`remoteExec` act on the remote host; `buildImage` and `saveImage` are
local. -/
inductive Ev
  | buildImage (app : String)
  | saveImage (app : String)
  | rsyncImage (app host : String)
  | loadImage (app host : String)
  | writeRemoteFile (path : String)
  | scpFile (localPath remotePath : String)
  | remoteExec (cmd : String)
deriving DecidableEq, Repr

/-- The local-filesystem oracle consulted by the env-file existence
check. -/
structure World where
  fileExists : String → Bool

/-- Embeds `DockerSaveLoad::check_env_files`: the first application
whose declared env file does not exist locally yields the
`FileNotFound` error, with the message the source formats. -/
def check_env_files (w : World) : List App → Except DeployError Unit
  | [] => Except.ok ()
  | a :: rest =>
    match a.env_file with
    | some ef =>
      if w.fileExists ef then check_env_files w rest
      else Except.error (DeployError.fileNotFound
        (ef ++ " not found for app '" ++ a.name
          ++ "'. Create from .env.example"))
    | none => check_env_files w rest

/-- The collaborator actions of `DockerSaveLoad::transfer_image`:
local `docker save`, rsync of the image tar to the remote host, and
remote `docker load`.  The external commands themselves are
abstracted as succeeding. -/
def transfer_image_events (a : App) (host : String) : List Ev :=
  [Ev.saveImage a.name, Ev.rsyncImage a.name host,
   Ev.loadImage a.name host]

/-- Embeds `DockerSaveLoad::deploy` from
`src/deploy/docker_save.rs`: the env files are checked first and a
failure returns before any collaborator action of this function; then
the rendered compose and Caddyfile documents are written into the
remote deploy directory, each env file is copied (named
`.env.{app}` when several applications deploy together, bare `.env`
otherwise, then `chmod 600`), the stack is restarted, health gating
runs, and the final status is shown.  Remote commands other than the
polled health status are abstracted as succeeding. -/
def docker_save_deploy (w : World)
    (polls : String → Nat → Option String) (host user : String)
    (apps : List App) (caddy : Caddy) (remoteDir : String) :
    List Ev × Except DeployError Unit :=
  match check_env_files w apps with
  | Except.error e => ([], Except.error e)
  | Except.ok () =>
    let writes := [Ev.writeRemoteFile (remoteDir ++ "/docker-compose.yml"),
                   Ev.writeRemoteFile (remoteDir ++ "/Caddyfile")]
    let envs := apps.flatMap (fun a =>
      match a.env_file with
      | some ef =>
        let remoteName := if apps.length > 1 then
          remoteDir ++ "/.env." ++ a.name else remoteDir ++ "/.env"
        [Ev.scpFile ef remoteName,
         Ev.remoteExec ("chmod 600 " ++ remoteName)]
      | none => [])
    let restart := [Ev.remoteExec ("cd " ++ remoteDir
      ++ " && docker compose down 2>/dev/null || true && docker compose up -d")]
    match wait_healthy polls apps with
    | Except.error e => (writes ++ envs ++ restart, Except.error e)
    | Except.ok () =>
      (writes ++ envs ++ restart
        ++ [Ev.remoteExec ("cd " ++ remoteDir ++ " && docker compose ps")],
       Except.ok ())

/-- Embeds `Pipeline::cmd_deploy` from `src/pipeline.rs` over the
`DockerSaveLoad` deployer: the dry-run variant renders and prints
only, performing no collaborator action; otherwise the image is
built locally (unless skipped), transferred to the remote host, and
the deployer's `deploy` runs with the pipeline's application. -/
def cmd_deploy (w : World) (polls : String → Nat → Option String)
    (app : App) (caddy : Caddy) (remoteDir sshUser host : String)
    (skipBuild dryRun : Bool) : List Ev × Except DeployError Unit :=
  if dryRun then ([], Except.ok ())
  else
    let buildEvs := if skipBuild then [] else [Ev.buildImage app.name]
    let d := docker_save_deploy w polls host sshUser [app] caddy remoteDir
    (buildEvs ++ transfer_image_events app host ++ d.1, d.2)

/-- Embeds `ServerInfo` from `src/provision/mod.rs`. -/
structure ServerInfo where
  name : String
  ip : String
  region : String
  ssh_key_id : String
  ssh_key_file : String
deriving DecidableEq, Repr

/-- Provisioner collaborator events recorded by the provision-path
embedding. -/
inductive PEv
  | checkPrerequisites
  | getServer (name : String)
  | createServer (name region keyId : String)
  | upsertARecord (ip : String)
  | setupServer (name : String)
deriving DecidableEq, Repr

/-- The provisioning environment for one `cmd_provision` run:
prerequisite-check outcome, the detected DigitalOcean SSH key
(`none` embeds the failure of `detect_do_ssh_key`), the server a
successful `create_server` returns for a name and region, and
whether a DNS provider is configured. -/
structure ProvEnv where
  prereqOk : Bool
  sshKey : Option (String × String)
  newServer : String → String → ServerInfo
  hasDns : Bool

/-- The number of server-creation calls in a provisioning trace. -/
def countCreate (tr : List PEv) : Nat :=
  (tr.filter (fun e => match e with
    | PEv.createServer _ _ _ => true
    | _ => false)).length

/-- Embeds `Pipeline::cmd_provision` from `src/pipeline.rs` over an
explicit provisioner state (the servers that exist, by name —
`get_server` is the lookup and a successful `create_server`
registers its result under the requested name): check prerequisites;
if a server of the name already exists, report it and return success
without creating; otherwise detect the SSH key, create the server,
upsert the DNS A record when both a DNS provider and a domain are
configured, then run server setup.  Collaborator failures other than
the missing-prerequisite and missing-key cases are abstracted as
succeeding. -/
def cmd_provision (env : ProvEnv) (st : List (String × ServerInfo))
    (name : String) (domain : Option String) (region : Option String) :
    List PEv × Except DeployError Unit × List (String × ServerInfo) :=
  if env.prereqOk = false then
    ([PEv.checkPrerequisites],
     Except.error (DeployError.prerequisiteMissing
       "provisioner prerequisites"), st)
  else
    match st.lookup name with
    | some _ =>
      ([PEv.checkPrerequisites, PEv.getServer name], Except.ok (), st)
    | none =>
      match env.sshKey with
      | none =>
        ([PEv.checkPrerequisites, PEv.getServer name],
         Except.error (DeployError.prerequisiteMissing
           "no SSH keys found in DigitalOcean"), st)
      | some (keyId, _) =>
        let reg := region.getD "fra1"
        let info := env.newServer name reg
        let dnsEvs := match domain with
          | some _ => if env.hasDns then [PEv.upsertARecord info.ip] else []
          | none => []
        ([PEv.checkPrerequisites, PEv.getServer name,
          PEv.createServer name reg keyId] ++ dnsEvs
            ++ [PEv.setupServer name],
         Except.ok (), (name, info) :: st)

/-- Destroy-path collaborator events. -/
inductive DEv
  | destroyServer (name : String)
  | deleteARecord
deriving DecidableEq, Repr

/-- Embeds `Pipeline::cmd_destroy` from `src/pipeline.rs`: with no
provisioner configured the command errors before prompting; otherwise
the confirmation line is read from the interactive prompt
(`input` is the line read, trailing newline included), any input
whose trimmed content differs from `yes` aborts with success and no
collaborator call, and on confirmation the server is destroyed and
then, when a DNS provider and a domain are both configured, the A
record is deleted. -/
def cmd_destroy (hasProvisioner : Bool) (input : String) (hasDns : Bool)
    (name : String) (domain : Option String) :
    List DEv × Except DeployError Unit :=
  if hasProvisioner = false then
    ([], Except.error (DeployError.other "no provisioner configured"))
  else if trimChars input ≠ "yes" then ([], Except.ok ())
  else
    let dnsEvs := if hasDns && domain.isSome then [DEv.deleteARecord] else []
    ([DEv.destroyServer name] ++ dnsEvs, Except.ok ())

/-- The Application of the C3 failing input: it declares an env file
that will not exist locally. -/
def c3App : App :=
  { name := "api", env_file := some "deploy/.env.prod", expose := [8000] }

/-- The local filesystem of the C3 failing input: no file exists. -/
def c3World : World := { fileExists := fun _ => false }

/-- The Application of the C4 witness: health-checked, never
healthy. -/
def c4App : App :=
  { name := "api", expose := [8000],
    healthcheck := some "curl -f http://localhost:8000/health" }

/-- The provisioning environment of the C5 witness. -/
def c5Env : ProvEnv :=
  { prereqOk := true,
    sshKey := some ("12345678", "/root/.ssh/id_ed25519"),
    newServer := fun n r =>
      { name := n, ip := "198.51.100.3", region := r,
        ssh_key_id := "12345678", ssh_key_file := "/root/.ssh/id_ed25519" },
    hasDns := false }

/-- The Proxy Descriptor of the C1 failing input: two routes in
declaration order — a path-scoped one and the empty catch-all — plus a
default upstream that the claim requires to be absent from the
output. -/
def c1Caddy : Caddy :=
  { reverse_proxy := some "ignored:9999",
    routes := [("/api/*", "api:8000"), ("", "web:3000")] }

/-- The Application of the C2 failing input. -/
def c2App : App := { name := "api", expose := [8000] }

/-- The Proxy Descriptor of the C2 failing input: one (catch-all)
route, no default upstream, so `has_upstreams()` is true. -/
def c2Caddy : Caddy := { routes := [("", "web:3000")] }

/-- The Application of the C8 failing input: an env-file path whose
final component is `..`, for which Rust `Path::file_name` is
undefined. -/
def c8App : App := { name := "myapp", env_file := some "deploy/.." }

/-- The Application of the C7 witness. -/
def c7App : App :=
  { name := "api",
    env := [("KEY", "value")],
    env_file := some ".env",
    volumes := [("data", "/app/data")],
    expose := [3000],
    healthcheck := some "curl -f http://localhost:3000/" }

/-- C1: evaluation at the failing input.  With a non-empty route list
the renderer is required to emit one proxy block per route and to
suppress the default upstream; the code instead renders the default
upstream as the only directive, emits no block for either route, and
produces output identical to that of the same descriptor with all
routes removed. -/
theorem caddyfile_render_ignores_routes_eval :
    Caddyfile.renderLines c1Caddy "example.com"
        = ["example.com \x7b", "\treverse_proxy ignored:9999", "\x7d"]
    ∧ Caddyfile.renderLines c1Caddy "example.com"
        = Caddyfile.renderLines { c1Caddy with routes := [] } "example.com"
    ∧ c1Caddy.has_upstreams = true := by
  refine ⟨rfl, rfl, rfl⟩

/-- C2: evaluation at the failing input.  `has_upstreams()` is true
(the route list is non-empty), yet the rendered manifest contains no
proxy service, no proxy volumes, and hence no proxy ports or
dependency edges: the renderer gates the proxy on
`reverse_proxy.is_some()` alone. -/
theorem compose_omits_proxy_despite_upstreams_eval :
    c2Caddy.has_upstreams = true
    ∧ Compose.render_services c2App c2Caddy
        = [("api", Compose.app_service c2App)]
    ∧ Compose.top_level_volumes c2App c2Caddy = []
    ∧ (Compose.parseManifest (Compose.renderLines c2App c2Caddy)).services
        = ["api"]
    ∧ (Compose.parseManifest (Compose.renderLines c2App c2Caddy)).volumes
        = [] := by
  refine ⟨rfl, by decide, rfl, by decide, by decide⟩

/-- C10: whenever the manifest includes the proxy service, the
proxy's `depends_on` entry for the application carries the
`service_healthy` condition unconditionally; in particular this holds
when the application declares no health-check command, in which case
the application service is rendered without any health-check block. -/
theorem proxy_depends_on_service_healthy_unconditional
    (app : App) (caddy : Caddy)
    (hrp : caddy.reverse_proxy.isSome = true)
    (hn : app.name ≠ "caddy")
    (hhc : app.healthcheck = none) :
    ("caddy", Compose.caddy_service app) ∈ Compose.render_services app caddy
    ∧ (Compose.caddy_service app).depends_on
        = [(app.name, "service_healthy")]
    ∧ (Compose.app_service app).healthcheck = none := by
  refine ⟨?_, rfl, ?_⟩
  · have hne : ¬ ("caddy" = app.name) := fun hx => hn hx.symm
    simp [Compose.render_services, hrp, Compose.imInsert, hne]
  · simp [Compose.app_service, hhc]

/-- Witness for C10: a concrete app without a health-check behind a
proxy with a default upstream. -/
theorem proxy_depends_on_service_healthy_unconditional_witness :
    (({ reverse_proxy := some "web:3000" } : Caddy).reverse_proxy.isSome = true
      ∧ ({ name := "web", expose := [3000] } : App).name ≠ "caddy"
      ∧ ({ name := "web", expose := [3000] } : App).healthcheck = none)
    ∧ (("caddy", Compose.caddy_service { name := "web", expose := [3000] })
          ∈ Compose.render_services { name := "web", expose := [3000] }
              { reverse_proxy := some "web:3000" }
        ∧ (Compose.caddy_service { name := "web", expose := [3000] }).depends_on
            = [("web", "service_healthy")]
        ∧ (Compose.app_service { name := "web", expose := [3000] }).healthcheck
            = none) := by
  refine ⟨⟨rfl, by decide, rfl⟩, ?_⟩
  exact proxy_depends_on_service_healthy_unconditional
    { name := "web", expose := [3000] } { reverse_proxy := some "web:3000" }
    rfl (by decide) rfl

/-- Every chunk produced by `splitPath` is free of the separator. -/
theorem splitPath_no_slash (cs : List Char) :
    ∀ g ∈ splitPath cs, '/' ∉ g := by
  induction cs with
  | nil =>
    intro g hg
    simp only [splitPath, List.mem_singleton] at hg
    simp [hg]
  | cons c rest ih =>
    intro g hg
    simp only [splitPath] at hg
    by_cases hc : c = '/'
    · rw [if_pos hc] at hg
      rcases List.mem_cons.mp hg with h | h
      · simp [h]
      · exact ih g h
    · rw [if_neg hc] at hg
      cases hrec : splitPath rest with
      | nil =>
        rw [hrec] at hg
        have hg1 := List.mem_singleton.mp hg
        subst hg1
        intro hmem
        exact hc (List.mem_singleton.mp hmem).symm
      | cons g0 gs =>
        rw [hrec] at hg
        rcases List.mem_cons.mp hg with h | h
        · subst h
          intro hmem
          rcases List.mem_cons.mp hmem with h1 | h1
          · exact hc h1.symm
          · exact ih g0 (hrec ▸ List.mem_cons_self g0 gs) h1
        · have hmem : g ∈ splitPath rest := by
            rw [hrec]; exact List.mem_cons_of_mem g0 h
          exact ih g hmem

/-- When `fileName` is defined, its result contains no path
separator. -/
theorem fileName_no_slash (p b : String) (h : fileName p = some b) :
    '/' ∉ b.data := by
  unfold fileName at h
  cases hl : ((splitPath p.data).filter
      (fun g => !(g.isEmpty || g == ['.']))).getLast? with
  | none => rw [hl] at h; cases h
  | some g =>
    rw [hl] at h
    dsimp only at h
    by_cases hdd : g = ['.', '.']
    · rw [if_pos hdd] at h; cases h
    · rw [if_neg hdd] at h
      injection h with h
      subst h
      have hmem : g ∈ (splitPath p.data).filter
          (fun g => !(g.isEmpty || g == ['.'])) := by
        rcases List.mem_getLast?_eq_getLast (x := g) hl with ⟨hne, hg⟩
        rw [hg]
        exact List.getLast_mem hne
      have hg := splitPath_no_slash p.data g (List.mem_filter.mp hmem).1
      simpa using hg

/-- C8: counterexample.  For the env-file path `deploy/..` the
rendered env-file reference is the full path `deploy/..` — it is not
the final path component and it retains the directory portion
(`/` occurs in it). -/
theorem env_file_reference_keeps_directory_counterexample :
    c8App.env_file = some "deploy/.."
    ∧ (Compose.app_service c8App).env_file = some "deploy/.."
    ∧ '/' ∈ "deploy/..".data := by
  refine ⟨rfl, by decide, by decide⟩

/-- C8 (amended): when the env-file path has a well-defined final
normal component, the rendered env-file reference is exactly that
basename and contains no directory separator; when `Path::file_name`
is undefined for the path (empty, or ending in `..`, `.` or
separators), the full path string is used verbatim as the
reference. -/
theorem env_file_reference_basename_amended (a : App) (ef : String)
    (h : a.env_file = some ef) :
    (∀ b, fileName ef = some b →
        (Compose.app_service a).env_file = some b ∧ '/' ∉ b.data)
    ∧ (fileName ef = none →
        (Compose.app_service a).env_file = some ef) := by
  constructor
  · intro b hb
    refine ⟨?_, fileName_no_slash ef b hb⟩
    simp [Compose.app_service, h, hb]
  · intro hb
    simp [Compose.app_service, h, hb]

/-- Witness for C8 (amended): the path `deploy/vps/.env` renders as
the bare basename `.env`. -/
theorem env_file_reference_basename_amended_witness :
    ({ name := "myapp", env_file := some "deploy/vps/.env" } : App).env_file
        = some "deploy/vps/.env"
    ∧ (Compose.app_service
        { name := "myapp", env_file := some "deploy/vps/.env" }).env_file
        = some ".env"
    ∧ '/' ∉ ".env".data := by
  refine ⟨rfl, ?_⟩
  have h := (env_file_reference_basename_amended
      { name := "myapp", env_file := some "deploy/vps/.env" }
      "deploy/vps/.env" rfl).1 ".env" (by decide)
  exact h

/-- C9: upstream resolution from the first exposed port fails exactly
when the exposed-port list is empty, and otherwise returns the app
name paired with the first exposed port; resolution of a specific
port `p` fails exactly when `p` was never exposed, and otherwise
returns the app name paired with `p`. -/
theorem upstream_resolution_partial_exactly (a : App) :
    (a.upstream = none ↔ a.expose = [])
    ∧ (∀ p : Nat, a.expose.head? = some p →
        a.upstream = some { name := a.name, port := p })
    ∧ (∀ p : Nat,
        (a.upstream_port p = none ↔ p ∉ a.expose)
        ∧ (p ∈ a.expose →
            a.upstream_port p = some { name := a.name, port := p })) := by
  refine ⟨?_, ?_, ?_⟩
  · constructor
    · intro h
      cases hx : a.expose with
      | nil => rfl
      | cons x xs =>
        exfalso
        rw [App.upstream, hx] at h
        simp at h
    · intro h
      rw [App.upstream, h]
      rfl
  · intro p hp
    rw [App.upstream, hp]
    rfl
  · intro p
    constructor
    · constructor
      · intro h hmem
        rw [App.upstream_port, if_pos (by simpa using hmem)] at h
        exact Option.noConfusion h
      · intro hmem
        rw [App.upstream_port, if_neg (by simpa using hmem)]
    · intro hmem
      rw [App.upstream_port, if_pos (by simpa using hmem)]

/-- Witness for C9: concrete evaluation on an app exposing ports
`[8000, 9000]`. -/
theorem upstream_resolution_partial_exactly_witness :
    ({ name := "api", expose := [8000, 9000] } : App).upstream
        = some { name := "api", port := 8000 }
    ∧ ({ name := "api", expose := [8000, 9000] } : App).upstream_port 9000
        = some { name := "api", port := 9000 }
    ∧ ({ name := "api", expose := [8000, 9000] } : App).upstream_port 1234
        = none
    ∧ ({ name := "api", expose := [] } : App).upstream = none := by
  refine ⟨?_, ?_, ?_, ?_⟩
  · exact (upstream_resolution_partial_exactly
      { name := "api", expose := [8000, 9000] }).2.1 8000 rfl
  · exact ((upstream_resolution_partial_exactly
      { name := "api", expose := [8000, 9000] }).2.2 9000).2 (by decide)
  · exact ((upstream_resolution_partial_exactly
      { name := "api", expose := [8000, 9000] }).2.2 1234).1.2 (by decide)
  · exact (upstream_resolution_partial_exactly
      { name := "api", expose := [] }).1.mpr rfl

end Catapulta

namespace Catapulta
namespace Compose

theorem data_keyLine (k : String) :
    ("  " ++ k ++ ":").data = ' ' :: ' ' :: (k.data ++ [':']) := by
  have h2 : ("  " : String).data = [' ', ' '] := rfl
  have h3 : (":" : String).data = [':'] := rfl
  rw [String.data_append, String.data_append, h2, h3]
  simp

theorem data_bodyLine (l : String) :
    ("    " ++ l).data = ' ' :: ' ' :: ' ' :: ' ' :: l.data := by
  have h4 : ("    " : String).data = [' ', ' ', ' ', ' '] := rfl
  rw [String.data_append, h4]
  rfl

theorem data_headerLine (h : String) :
    (h ++ ":").data = h.data ++ [':'] := by
  have h3 : (":" : String).data = [':'] := rfl
  rw [String.data_append, h3]

theorem lineKey_keyLine (k : String) (c : Char) (cs : List Char)
    (hk : k.data = c :: cs) (hc : c ≠ ' ') :
    lineKey ("  " ++ k ++ ":") = some k := by
  rw [lineKey, data_keyLine, hk]
  show lineKeyData (' ' :: ' ' :: c :: (cs ++ [':'])) = some k
  rw [lineKeyData]
  rw [if_neg hc]
  have hlast : (c :: (cs ++ [':'])).getLast? = some ':' := by
    have : c :: (cs ++ [':']) = (c :: cs) ++ [':'] := by simp
    rw [this, List.getLast?_concat]
  rw [if_pos hlast]
  have hdrop : (c :: (cs ++ [':'])).dropLast = c :: cs := by
    have : c :: (cs ++ [':']) = (c :: cs) ++ [':'] := by simp
    rw [this, List.dropLast_concat]
  rw [hdrop]
  congr 1
  apply String.ext
  simp [hk]

theorem lineKey_bodyLine (l : String) :
    lineKey ("    " ++ l) = none := by
  rw [lineKey, data_bodyLine]
  rw [lineKeyData]
  rw [if_pos rfl]

theorem isHeader_keyLine (k : String) :
    isHeader ("  " ++ k ++ ":") = false := by
  rw [isHeader, data_keyLine]
  rw [isHeaderData]
  rw [if_pos rfl]

theorem isHeader_bodyLine (l : String) :
    isHeader ("    " ++ l) = false := by
  rw [isHeader, data_bodyLine]
  rw [isHeaderData]
  rw [if_pos rfl]

theorem isHeader_headerLine (h : String) (c : Char) (cs : List Char)
    (hh : h.data = c :: cs) (hc : c ≠ ' ') :
    isHeader (h ++ ":") = true := by
  rw [isHeader, data_headerLine, hh]
  show isHeaderData (c :: (cs ++ [':'])) = true
  rw [isHeaderData]
  rw [if_neg hc]
  simp only [decide_eq_true_eq]
  have : c :: (cs ++ [':']) = (c :: cs) ++ [':'] := by simp
  rw [this, List.getLast?_concat]

theorem keyLine_ne_headerLine (k h : String) (c : Char) (cs : List Char)
    (hh : h.data = c :: cs) (hc : c ≠ ' ') :
    ("  " ++ k ++ ":") ≠ (h ++ ":") := by
  intro he
  have hd := congrArg String.data he
  rw [data_keyLine, data_headerLine, hh] at hd
  have : ' ' = c := by
    have := congrArg List.head? hd
    simpa using this
  exact hc this.symm

theorem bodyLine_ne_headerLine (l h : String) (c : Char) (cs : List Char)
    (hh : h.data = c :: cs) (hc : c ≠ ' ') :
    ("    " ++ l) ≠ (h ++ ":") := by
  intro he
  have hd := congrArg String.data he
  rw [data_bodyLine, data_headerLine, hh] at hd
  have : ' ' = c := by
    have := congrArg List.head? hd
    simpa using this
  exact hc this.symm

theorem headerLine_inj (h h2 : String) (he : (h ++ ":") = (h2 ++ ":")) :
    h = h2 := by
  have hd := congrArg String.data he
  rw [data_headerLine, data_headerLine] at hd
  have := congrArg List.dropLast hd
  rw [List.dropLast_concat, List.dropLast_concat] at this
  exact String.ext this

end Compose
end Catapulta

namespace Catapulta
namespace Compose

theorem collectKeys_body (bs : List String) (tail : List String) :
    collectKeys (bs.map (fun l => "    " ++ l) ++ tail) = collectKeys tail := by
  induction bs with
  | nil => rfl
  | cons b bs ih =>
    simp only [List.map_cons, List.cons_append, collectKeys,
      isHeader_bodyLine, Bool.false_eq_true, if_false, lineKey_bodyLine]
    exact ih

theorem collectKeys_entries (entries : List (String × List String))
    (tail : List String)
    (hgood : ∀ e ∈ entries, ∃ c cs, e.1.data = c :: cs ∧ c ≠ ' ') :
    collectKeys (entries.flatMap entryLines ++ tail)
      = entries.map Prod.fst ++ collectKeys tail := by
  induction entries with
  | nil => simp
  | cons e es ih =>
    obtain ⟨c, cs, hk, hc⟩ := hgood e (List.mem_cons_self e es)
    have hstep : (e :: es).flatMap entryLines ++ tail
        = ("  " ++ e.1 ++ ":") ::
            (e.2.map (fun l => "    " ++ l)
              ++ (es.flatMap entryLines ++ tail)) := by
      simp [entryLines]
    rw [hstep, collectKeys]
    simp only [isHeader_keyLine, Bool.false_eq_true, if_false,
      lineKey_keyLine e.1 c cs hk hc]
    rw [collectKeys_body, ih (fun x hx => hgood x (List.mem_cons_of_mem e hx))]
    simp

theorem collectKeys_header (h : String) (c : Char) (cs : List Char)
    (hh : h.data = c :: cs) (hc : c ≠ ' ') (rest : List String) :
    collectKeys ((h ++ ":") :: rest) = [] := by
  rw [collectKeys]
  rw [if_pos (isHeader_headerLine h c cs hh hc)]

theorem sectionKeys_append_of_ne (A tail : List String) (h : String)
    (hA : ∀ l ∈ A, l ≠ h ++ ":") :
    sectionKeys (A ++ tail) h = sectionKeys tail h := by
  induction A with
  | nil => rfl
  | cons a A ih =>
    rw [List.cons_append, sectionKeys]
    rw [if_neg (hA a (List.mem_cons_self a A))]
    exact ih (fun l hl => hA l (List.mem_cons_of_mem a hl))

theorem sectionKeys_block_hit (h : String)
    (entries : List (String × List String)) (tail : List String) :
    sectionKeys (sectionBlock h entries ++ tail) h
      = collectKeys (entries.flatMap entryLines ++ tail) := by
  rw [sectionBlock, List.cons_append, sectionKeys]
  rw [if_pos rfl]

theorem mem_sectionBlock_shapes (h : String)
    (entries : List (String × List String)) (l : String)
    (hl : l ∈ sectionBlock h entries) :
    l = h ++ ":" ∨ (∃ k, l = "  " ++ k ++ ":") ∨ (∃ b, l = "    " ++ b) := by
  rw [sectionBlock] at hl
  rcases List.mem_cons.mp hl with h1 | h1
  · exact Or.inl h1
  · rcases List.mem_flatMap.mp h1 with ⟨e, _, hle⟩
    rw [entryLines] at hle
    rcases List.mem_cons.mp hle with h2 | h2
    · exact Or.inr (Or.inl ⟨e.1, h2⟩)
    · rcases List.mem_map.mp h2 with ⟨b, _, hb⟩
      exact Or.inr (Or.inr ⟨b, hb.symm⟩)

theorem sectionKeys_block_skip (h h2 : String)
    (entries : List (String × List String)) (tail : List String)
    (hne : h ≠ h2) (c : Char) (cs : List Char)
    (hh2 : h2.data = c :: cs) (hc : c ≠ ' ') :
    sectionKeys (sectionBlock h entries ++ tail) h2 = sectionKeys tail h2 := by
  apply sectionKeys_append_of_ne
  intro l hl
  rcases mem_sectionBlock_shapes h entries l hl with h1 | ⟨k, h1⟩ | ⟨b, h1⟩
  · subst h1
    intro he
    exact hne (headerLine_inj h h2 he)
  · subst h1
    exact keyLine_ne_headerLine k h2 c cs hh2 hc
  · subst h1
    exact bodyLine_ne_headerLine b h2 c cs hh2 hc

end Compose
end Catapulta

namespace Catapulta
namespace Compose

theorem imInsert_keys_mem {α : Type} (m : List (String × α)) (k : String)
    (v : α) (x : String) :
    x ∈ (imInsert m k v).map Prod.fst ↔ x ∈ m.map Prod.fst ∨ x = k := by
  rw [imInsert]
  split
  case isTrue hp =>
    have hk : k ∈ m.map Prod.fst := by
      rcases List.any_eq_true.mp hp with ⟨e, he, hdec⟩
      have he1 : e.1 = k := of_decide_eq_true hdec
      exact he1 ▸ List.mem_map_of_mem Prod.fst he
    have hkeys : (m.map (fun e => if e.1 = k then (e.1, v) else e)).map Prod.fst
        = m.map Prod.fst := by
      rw [List.map_map]
      apply List.map_congr_left
      intro e _
      by_cases h1 : e.1 = k
      · simp [h1]
      · simp [h1]
    rw [hkeys]
    constructor
    · exact fun h => Or.inl h
    · rintro (h | h)
      · exact h
      · exact h ▸ hk
  case isFalse hp =>
    simp

theorem foldl_imInsert_keys_mem (vs : List (String × String))
    (init : List (String × String)) (x : String) :
    x ∈ (vs.foldl (fun m v => imInsert m v.1 "local") init).map Prod.fst
      ↔ x ∈ init.map Prod.fst ∨ x ∈ vs.map Prod.fst := by
  induction vs generalizing init with
  | nil => simp
  | cons v vs ih =>
    rw [List.foldl_cons, ih, imInsert_keys_mem]
    simp [or_assoc]

theorem top_level_volumes_keys_mem (app : App) (caddy : Caddy) (x : String) :
    x ∈ (top_level_volumes app caddy).map Prod.fst
      ↔ x ∈ app.volumes.map Prod.fst
        ∨ (caddy.reverse_proxy.isSome = true
            ∧ (x = "caddy-data" ∨ x = "caddy-config")) := by
  simp only [top_level_volumes]
  by_cases hrp : caddy.reverse_proxy.isSome = true
  · rw [if_pos hrp]
    rw [imInsert_keys_mem, imInsert_keys_mem, foldl_imInsert_keys_mem]
    simp [hrp, or_assoc]
  · rw [if_neg hrp]
    rw [foldl_imInsert_keys_mem]
    simp [hrp]

theorem render_services_eq (app : App) (caddy : Caddy) :
    render_services app caddy =
      if caddy.reverse_proxy.isSome then
        (if app.name = "caddy" then [("caddy", app_service app)]
         else [("caddy", caddy_service app), (app.name, app_service app)])
      else [(app.name, app_service app)] := by
  simp only [render_services]
  by_cases hrp : caddy.reverse_proxy.isSome = true
  · rw [if_pos hrp, if_pos hrp]
    by_cases hn : app.name = "caddy"
    · rw [if_pos hn]
      rw [hn]
      simp [imInsert]
    · rw [if_neg hn]
      have hne : ¬ ("caddy" = app.name) := fun h => hn h.symm
      simp [imInsert, hne]
  · rw [if_neg hrp, if_neg hrp]
    simp [imInsert]

theorem render_services_keys_mem (app : App) (caddy : Caddy) (x : String) :
    x ∈ (render_services app caddy).map Prod.fst
      ↔ (x = app.name ∨ (caddy.reverse_proxy.isSome = true ∧ x = "caddy")) := by
  rw [render_services_eq]
  by_cases hrp : caddy.reverse_proxy.isSome = true
  · rw [if_pos hrp]
    by_cases hn : app.name = "caddy"
    · rw [if_pos hn]
      simp [hn, hrp]
    · rw [if_neg hn]
      simp [hrp, or_comm]
  · rw [if_neg hrp]
    simp [hrp]

end Compose

theorem hostnameToken_shape (s : String) (h : hostnameToken s = true) :
    ∃ c cs, s.data = c :: cs ∧ c ≠ ' ' := by
  rw [hostnameToken] at h
  simp only [Bool.and_eq_true] at h
  rcases h with ⟨h1, h2⟩
  cases hd : s.data with
  | nil =>
    exfalso
    have : s.isEmpty = true := by
      rw [String.isEmpty_iff]
      exact String.ext hd
    simp [this] at h1
  | cons c cs =>
    refine ⟨c, cs, rfl, ?_⟩
    have hc : (c.isAlphanum || c == '-') = true := by
      have := List.all_eq_true.mp h2 c
      apply this
      rw [hd]
      exact List.mem_cons_self c cs
    intro he
    subst he
    simp at hc

end Catapulta

namespace Catapulta
namespace Compose

theorem parse_render_names (app : App) (caddy : Caddy)
    (hname : hostnameToken app.name = true)
    (hvols : ∀ v ∈ app.volumes, hostnameToken v.1 = true) :
    (parseManifest (renderLines app caddy)).services
        = (render_services app caddy).map Prod.fst
    ∧ (parseManifest (renderLines app caddy)).volumes
        = (top_level_volumes app caddy).map Prod.fst
    ∧ (parseManifest (renderLines app caddy)).networks
        = [app.name ++ "-network"] := by
  obtain ⟨c0, cs0, hd0, hc0⟩ := hostnameToken_shape app.name hname
  have hSgood : ∀ e ∈ (render_services app caddy).map
      (fun e => (e.1, serviceLines e.2)),
      ∃ c cs, e.1.data = c :: cs ∧ c ≠ ' ' := by
    intro e he
    rcases List.mem_map.mp he with ⟨e0, he0, rfl⟩
    have hx : e0.1 ∈ (render_services app caddy).map Prod.fst :=
      List.mem_map_of_mem Prod.fst he0
    rcases (render_services_keys_mem app caddy e0.1).mp hx with h | h
    · rw [h]
      exact ⟨c0, cs0, hd0, hc0⟩
    · rw [h.2]
      exact ⟨'c', ['a', 'd', 'd', 'y'], rfl, by decide⟩
  have hVgood : ∀ e ∈ (top_level_volumes app caddy).map
      (fun e => (e.1, ["driver: " ++ e.2])),
      ∃ c cs, e.1.data = c :: cs ∧ c ≠ ' ' := by
    intro e he
    rcases List.mem_map.mp he with ⟨e0, he0, rfl⟩
    have hx : e0.1 ∈ (top_level_volumes app caddy).map Prod.fst :=
      List.mem_map_of_mem Prod.fst he0
    rcases (top_level_volumes_keys_mem app caddy e0.1).mp hx with h | h
    · rcases List.mem_map.mp h with ⟨v, hv, hveq⟩
      rw [← hveq]
      exact hostnameToken_shape v.1 (hvols v hv)
    · rcases h.2 with h | h
      · rw [h]
        exact ⟨'c', ['a', 'd', 'd', 'y', '-', 'd', 'a', 't', 'a'],
          rfl, by decide⟩
      · rw [h]
        exact ⟨'c', ['a', 'd', 'd', 'y', '-', 'c', 'o', 'n', 'f', 'i', 'g'],
          rfl, by decide⟩
  have hNgood : ∀ e ∈ (network app).map
      (fun e => (e.1, ["driver: " ++ e.2])),
      ∃ c cs, e.1.data = c :: cs ∧ c ≠ ' ' := by
    intro e he
    rcases List.mem_map.mp he with ⟨e0, he0, rfl⟩
    rw [network] at he0
    have he1 := List.mem_singleton.mp he0
    subst he1
    refine ⟨c0, cs0 ++ "-network".data, ?_, hc0⟩
    show (app.name ++ "-network").data = _
    rw [String.data_append, hd0]
    rfl
  have hmapS : ((render_services app caddy).map
      (fun e => (e.1, serviceLines e.2))).map Prod.fst
      = (render_services app caddy).map Prod.fst := by
    rw [List.map_map]
    rfl
  have hmapV : ((top_level_volumes app caddy).map
      (fun e => (e.1, ["driver: " ++ e.2]))).map Prod.fst
      = (top_level_volumes app caddy).map Prod.fst := by
    rw [List.map_map]
    rfl
  have hShdr : ("services" : String).data = 's' :: ['e','r','v','i','c','e','s'] := rfl
  have hVhdr : ("volumes" : String).data = 'v' :: ['o','l','u','m','e','s'] := rfl
  have hNhdr : ("networks" : String).data = 'n' :: ['e','t','w','o','r','k','s'] := rfl
  simp only [renderLines, parseManifest]
  by_cases hv : (top_level_volumes app caddy).isEmpty = true
  · have hvnil : top_level_volumes app caddy = [] := by
      simpa using hv
    rw [if_pos hv, List.append_nil]
    refine ⟨?_, ?_, ?_⟩
    · rw [sectionKeys_block_hit, collectKeys_entries _ _ hSgood]
      rw [sectionBlock]
      rw [collectKeys_header "networks" 'n' _ hNhdr (by decide)]
      rw [List.append_nil, hmapS]
    · rw [sectionKeys_block_skip "services" "volumes" _ _ (by decide)
        'v' _ hVhdr (by decide)]
      rw [← List.append_nil (sectionBlock "networks" _)]
      rw [sectionKeys_block_skip "networks" "volumes" _ _ (by decide)
        'v' _ hVhdr (by decide)]
      rw [hvnil]
      rfl
    · rw [sectionKeys_block_skip "services" "networks" _ _ (by decide)
        'n' _ hNhdr (by decide)]
      rw [← List.append_nil (sectionBlock "networks" _)]
      rw [sectionKeys_block_hit, collectKeys_entries _ _ hNgood]
      rfl
  · rw [if_neg hv, List.append_assoc]
    refine ⟨?_, ?_, ?_⟩
    · rw [sectionKeys_block_hit, collectKeys_entries _ _ hSgood]
      rw [sectionBlock, List.cons_append]
      rw [collectKeys_header "volumes" 'v' _ hVhdr (by decide)]
      rw [List.append_nil, hmapS]
    · rw [sectionKeys_block_skip "services" "volumes" _ _ (by decide)
        'v' _ hVhdr (by decide)]
      rw [sectionKeys_block_hit, collectKeys_entries _ _ hVgood]
      rw [sectionBlock]
      rw [collectKeys_header "networks" 'n' _ hNhdr (by decide)]
      rw [List.append_nil, hmapV]
    · rw [sectionKeys_block_skip "services" "networks" _ _ (by decide)
        'n' _ hNhdr (by decide)]
      rw [sectionKeys_block_skip "volumes" "networks" _ _ (by decide)
        'n' _ hNhdr (by decide)]
      rw [← List.append_nil (sectionBlock "networks" _)]
      rw [sectionKeys_block_hit, collectKeys_entries _ _ hNgood]
      rfl

end Compose
end Catapulta

namespace Catapulta

/-- C7: parsing the rendered orchestration manifest with the
structural grammar recovers a model matching one built directly from
the descriptors: the service names are exactly the application name
plus `caddy` when the proxy is rendered, the named volumes are exactly
the application's volume names plus the two proxy volumes when the
proxy is rendered, and the network list is exactly the shared
`{app}-network`.  Stated under the spec's validity invariants on
names (hostname tokens) and line-fitting strings. -/
theorem compose_manifest_round_trip (app : App) (caddy : Caddy)
    (h : app.wellFormedCompose = true) :
    (∀ s, s ∈ (Compose.parseManifest (Compose.renderLines app caddy)).services
        ↔ (s = app.name ∨ (caddy.reverse_proxy.isSome = true ∧ s = "caddy")))
    ∧ (∀ v, v ∈ (Compose.parseManifest (Compose.renderLines app caddy)).volumes
        ↔ (v ∈ app.volumes.map Prod.fst
            ∨ (caddy.reverse_proxy.isSome = true
                ∧ (v = "caddy-data" ∨ v = "caddy-config"))))
    ∧ (Compose.parseManifest (Compose.renderLines app caddy)).networks
        = [app.name ++ "-network"] := by
  simp only [App.wellFormedCompose, Bool.and_eq_true] at h
  have hname : hostnameToken app.name = true := h.1.1.1.1
  have hvols : ∀ v ∈ app.volumes, hostnameToken v.1 = true := by
    intro v hv
    have := List.all_eq_true.mp h.1.1.1.2 v hv
    exact (Bool.and_eq_true _ _ ▸ this).1
  obtain ⟨h1, h2, h3⟩ := Compose.parse_render_names app caddy hname hvols
  refine ⟨?_, ?_, h3⟩
  · intro s
    rw [h1]
    exact Compose.render_services_keys_mem app caddy s
  · intro v
    rw [h2]
    exact Compose.top_level_volumes_keys_mem app caddy v

/-- Witness for C7: the round trip evaluated on a concrete app and
proxy with a default upstream, a named volume, env vars, an env file
and a health check. -/
theorem compose_manifest_round_trip_witness :
    c7App.wellFormedCompose = true
    ∧ ((∀ s, s ∈ (Compose.parseManifest
          (Compose.renderLines c7App { reverse_proxy := some "api:3000" })).services
        ↔ (s = c7App.name
            ∨ (({ reverse_proxy := some "api:3000" } : Caddy).reverse_proxy.isSome = true
                ∧ s = "caddy")))
      ∧ (∀ v, v ∈ (Compose.parseManifest
          (Compose.renderLines c7App { reverse_proxy := some "api:3000" })).volumes
        ↔ (v ∈ c7App.volumes.map Prod.fst
            ∨ (({ reverse_proxy := some "api:3000" } : Caddy).reverse_proxy.isSome = true
                ∧ (v = "caddy-data" ∨ v = "caddy-config"))))
      ∧ (Compose.parseManifest
          (Compose.renderLines c7App { reverse_proxy := some "api:3000" })).networks
          = [c7App.name ++ "-network"]) :=
  ⟨by decide, compose_manifest_round_trip c7App
    { reverse_proxy := some "api:3000" } (by decide)⟩

end Catapulta

namespace Catapulta

theorem healthPolls_le (poll : Nat → Option String) :
    ∀ fuel attempt, healthPolls poll fuel attempt ≤ fuel := by
  intro fuel
  induction fuel with
  | zero => intro attempt; simp [healthPolls]
  | succ f ih =>
    intro attempt
    rw [healthPolls]
    cases hp : poll attempt <;> dsimp only
    case none =>
      by_cases hf : f = 0
      · simp [hf]
      · rw [if_neg hf]
        have := ih (attempt + 1)
        omega
    case some status =>
      by_cases h1 : trimChars status = "healthy"
      · simp [h1]
      · rw [if_neg h1]
        by_cases hf : f = 0
        · simp [hf]
        · rw [if_neg hf]
          have := ih (attempt + 1)
          omega

theorem healthLoop_error_char (poll : Nat → Option String) (name : String) :
    ∀ fuel attempt e,
      healthLoop poll name fuel attempt = Except.error e →
      e = DeployError.healthcheckTimeout name maxAttempts
      ∧ ∀ t, attempt ≤ t → t < attempt + fuel → ¬ healthyAt poll t := by
  intro fuel
  induction fuel with
  | zero => intro attempt e h; simp [healthLoop] at h
  | succ f ih =>
    intro attempt e h
    rw [healthLoop] at h
    cases hp : poll attempt <;> rw [hp] at h <;> dsimp only at h
    case none =>
      have hca : ¬ healthyAt poll attempt := by
        rintro ⟨s, hs, _⟩
        rw [hp] at hs
        cases hs
      by_cases hf : f = 0
      · rw [if_pos hf] at h
        injection h with h2
        refine ⟨h2.symm, ?_⟩
        intro t h1 h2t
        have ht : t = attempt := by omega
        rw [ht]
        exact hca
      · rw [if_neg hf] at h
        obtain ⟨he, hw⟩ := ih (attempt + 1) e h
        refine ⟨he, ?_⟩
        intro t h1 h2t
        by_cases ht : t = attempt
        · rw [ht]; exact hca
        · exact hw t (by omega) (by omega)
    case some status =>
      by_cases h1 : trimChars status = "healthy"
      · rw [if_pos h1] at h
        cases h
      · have hca : ¬ healthyAt poll attempt := by
          rintro ⟨s, hs, htr⟩
          rw [hp] at hs
          injection hs with hs
          rw [hs] at h1
          exact h1 htr
        rw [if_neg h1] at h
        by_cases hf : f = 0
        · rw [if_pos hf] at h
          injection h with h2
          refine ⟨h2.symm, ?_⟩
          intro t h1t h2t
          have ht : t = attempt := by omega
          rw [ht]
          exact hca
        · rw [if_neg hf] at h
          obtain ⟨he, hw⟩ := ih (attempt + 1) e h
          refine ⟨he, ?_⟩
          intro t h1t h2t
          by_cases ht : t = attempt
          · rw [ht]; exact hca
          · exact hw t (by omega) (by omega)

theorem healthLoop_never_timeout (poll : Nat → Option String)
    (name : String) :
    ∀ fuel attempt, 1 ≤ fuel →
      (∀ t, attempt ≤ t → t < attempt + fuel → ¬ healthyAt poll t) →
      healthLoop poll name fuel attempt
        = Except.error (DeployError.healthcheckTimeout name maxAttempts) := by
  intro fuel
  induction fuel with
  | zero => intro attempt h _; omega
  | succ f ih =>
    intro attempt _ hw
    rw [healthLoop]
    cases hp : poll attempt <;> dsimp only
    case none =>
      by_cases hf : f = 0
      · simp [hf]
      · rw [if_neg hf]
        exact ih (attempt + 1) (by omega)
          (fun t h1 h2 => hw t (by omega) (by omega))
    case some status =>
      have hnh : ¬ trimChars status = "healthy" := by
        intro hh
        exact hw attempt (le_refl _) (by omega) ⟨status, hp, hh⟩
      rw [if_neg hnh]
      by_cases hf : f = 0
      · simp [hf]
      · rw [if_neg hf]
        exact ih (attempt + 1) (by omega)
          (fun t h1 h2 => hw t (by omega) (by omega))

theorem waitList_timeout (polls : String → Nat → Option String) :
    ∀ l : List App, (∃ a ∈ l, ∀ t, ¬ healthyAt (polls a.name) t) →
      ∃ b ∈ l,
        (∀ t, 1 ≤ t → t ≤ maxAttempts → ¬ healthyAt (polls b.name) t)
        ∧ waitList polls l
            = Except.error
                (DeployError.healthcheckTimeout b.name maxAttempts) := by
  intro l
  induction l with
  | nil => rintro ⟨a, ha, _⟩; cases ha
  | cons c rest ih =>
    rintro ⟨a, ha, hnever⟩
    rw [waitList]
    cases hr : healthLoop (polls c.name) c.name maxAttempts 1
    case error e =>
      obtain ⟨he, hw⟩ := healthLoop_error_char (polls c.name) c.name
        maxAttempts 1 e hr
      refine ⟨c, List.mem_cons_self c rest, ?_, ?_⟩
      · intro t h1 h2
        exact hw t h1 (by omega)
      · dsimp only
        rw [he]
    case ok u =>
      cases u
      rcases List.mem_cons.mp ha with hac | hac
      · exfalso
        have hto := healthLoop_never_timeout (polls c.name) c.name
          maxAttempts 1 (by rw [maxAttempts]; omega)
          (fun t _ _ => hac ▸ hnever t)
        rw [hto] at hr
        cases hr
      · obtain ⟨b, hb, hwin, heq⟩ := ih ⟨a, hac, hnever⟩
        refine ⟨b, List.mem_cons_of_mem c hb, hwin, ?_⟩
        dsimp only
        exact heq

/-- C4: with at least one health-checked application whose polled
container status never reports healthy, health gating returns the
health-gate-timeout failure carrying the name of a health-checked
application that never polled healthy within the attempt window and
the fixed maximum attempt count; it polls that application at most
`maxAttempts` times and never reports success. -/
theorem health_gate_timeout (apps : List App)
    (polls : String → Nat → Option String)
    (a : App) (ha : a ∈ apps) (hhc : a.healthcheck.isSome = true)
    (hnever : ∀ t, ¬ healthyAt (polls a.name) t) :
    ∃ b, b ∈ apps ∧ b.healthcheck.isSome = true
      ∧ (∀ t, 1 ≤ t → t ≤ maxAttempts → ¬ healthyAt (polls b.name) t)
      ∧ wait_healthy polls apps
          = Except.error (DeployError.healthcheckTimeout b.name maxAttempts)
      ∧ healthPolls (polls b.name) maxAttempts 1 ≤ maxAttempts := by
  have haf : a ∈ apps.filter (fun x => x.healthcheck.isSome) :=
    List.mem_filter.mpr ⟨ha, hhc⟩
  have hne : ¬ (apps.filter (fun x => x.healthcheck.isSome)).isEmpty
      = true := by
    intro h
    rw [List.isEmpty_iff] at h
    rw [h] at haf
    cases haf
  obtain ⟨b, hb, hwin, heq⟩ := waitList_timeout polls _ ⟨a, haf, hnever⟩
  have hbm := List.mem_filter.mp hb
  refine ⟨b, hbm.1, hbm.2, hwin, ?_, healthPolls_le _ _ _⟩
  simp only [wait_healthy]
  rw [if_neg hne]
  exact heq

/-- Witness for C4: a single health-checked application whose status
polls forever as `starting`. -/
theorem health_gate_timeout_witness :
    (c4App ∈ [c4App] ∧ c4App.healthcheck.isSome = true
      ∧ (∀ t, ¬ healthyAt ((fun _ _ => some "starting") c4App.name) t))
    ∧ ∃ b, b ∈ [c4App] ∧ b.healthcheck.isSome = true
      ∧ (∀ t, 1 ≤ t → t ≤ maxAttempts
          → ¬ healthyAt ((fun _ _ => some "starting") b.name) t)
      ∧ wait_healthy (fun _ _ => some "starting") [c4App]
          = Except.error (DeployError.healthcheckTimeout b.name maxAttempts)
      ∧ healthPolls ((fun _ _ => some "starting") b.name)
          maxAttempts 1 ≤ maxAttempts := by
  have hnever : ∀ t, ¬ healthyAt ((fun _ _ => some "starting")
      c4App.name) t := by
    intro t h
    rcases h with ⟨s, hs, htrim⟩
    injection hs with hs
    rw [← hs] at htrim
    revert htrim
    decide
  refine ⟨⟨List.mem_cons_self c4App [], rfl, hnever⟩, ?_⟩
  exact health_gate_timeout [c4App] (fun _ _ => some "starting") c4App
    (List.mem_cons_self c4App []) rfl hnever

end Catapulta

namespace Catapulta

/-- C3: counterexample.  With the env file `deploy/.env.prod`
missing locally, the non-dry-run deploy does fail with the
file-not-found error — but the trace already contains the rsync of
the image to the remote host: the image transfer precedes the
env-file check, which only runs inside the deployer's `deploy`
step. -/
theorem deploy_transfer_precedes_env_check_counterexample :
    (cmd_deploy c3World (fun _ _ => none) c3App {} "/opt/app" "root"
        "203.0.113.7" false false).2
      = Except.error (DeployError.fileNotFound
          "deploy/.env.prod not found for app 'api'. Create from .env.example")
    ∧ Ev.rsyncImage "api" "203.0.113.7"
        ∈ (cmd_deploy c3World (fun _ _ => none) c3App {} "/opt/app" "root"
            "203.0.113.7" false false).1 := by
  refine ⟨rfl, ?_⟩
  decide

/-- C3 (amended): when an application's declared env file does not
exist locally, the non-dry-run deploy fails with the file-not-found
error before any file is written to the remote deploy directory — no
remote config write, no env-file copy, no remote command — but after
the image has been built (unless skipped) and transferred to the
remote host. -/
theorem deploy_env_check_before_remote_writes (w : World)
    (polls : String → Nat → Option String) (app : App) (caddy : Caddy)
    (remoteDir sshUser host : String) (skipBuild : Bool) (ef : String)
    (hef : app.env_file = some ef) (hmiss : w.fileExists ef = false) :
    (cmd_deploy w polls app caddy remoteDir sshUser host skipBuild false).2
      = Except.error (DeployError.fileNotFound
          (ef ++ " not found for app '" ++ app.name
            ++ "'. Create from .env.example"))
    ∧ (∀ p, Ev.writeRemoteFile p
        ∉ (cmd_deploy w polls app caddy remoteDir sshUser host
            skipBuild false).1)
    ∧ (∀ lp rp, Ev.scpFile lp rp
        ∉ (cmd_deploy w polls app caddy remoteDir sshUser host
            skipBuild false).1)
    ∧ (∀ c, Ev.remoteExec c
        ∉ (cmd_deploy w polls app caddy remoteDir sshUser host
            skipBuild false).1)
    ∧ Ev.rsyncImage app.name host
        ∈ (cmd_deploy w polls app caddy remoteDir sshUser host
            skipBuild false).1 := by
  have hchk : check_env_files w [app] = Except.error (DeployError.fileNotFound
      (ef ++ " not found for app '" ++ app.name
        ++ "'. Create from .env.example")) := by
    rw [check_env_files, hef]
    dsimp only
    rw [if_neg (by rw [hmiss]; exact Bool.false_ne_true)]
  simp only [cmd_deploy, docker_save_deploy, hchk]
  cases skipBuild <;>
    simp [transfer_image_events]

/-- Witness for C3 (amended): concrete evaluation at the C3 failing
input with the build step active. -/
theorem deploy_env_check_before_remote_writes_witness :
    c3App.env_file = some "deploy/.env.prod"
    ∧ c3World.fileExists "deploy/.env.prod" = false
    ∧ ((cmd_deploy c3World (fun _ _ => none) c3App {} "/opt/app" "root"
          "203.0.113.7" false false).2
        = Except.error (DeployError.fileNotFound
            ("deploy/.env.prod" ++ " not found for app '" ++ c3App.name
              ++ "'. Create from .env.example"))
      ∧ (∀ p, Ev.writeRemoteFile p
          ∉ (cmd_deploy c3World (fun _ _ => none) c3App {} "/opt/app" "root"
              "203.0.113.7" false false).1)
      ∧ (∀ lp rp, Ev.scpFile lp rp
          ∉ (cmd_deploy c3World (fun _ _ => none) c3App {} "/opt/app" "root"
              "203.0.113.7" false false).1)
      ∧ (∀ c, Ev.remoteExec c
          ∉ (cmd_deploy c3World (fun _ _ => none) c3App {} "/opt/app" "root"
              "203.0.113.7" false false).1)
      ∧ Ev.rsyncImage c3App.name "203.0.113.7"
          ∈ (cmd_deploy c3World (fun _ _ => none) c3App {} "/opt/app" "root"
              "203.0.113.7" false false).1) :=
  ⟨rfl, rfl, deploy_env_check_before_remote_writes c3World (fun _ _ => none)
    c3App {} "/opt/app" "root" "203.0.113.7" false "deploy/.env.prod"
    rfl rfl⟩

/-- C5: a provisioning run that finds a server of the requested name
already existing returns success with no `create_server` call; and
from a state without the server, running provision twice in a row
performs exactly one server-creation call in total, both runs
succeeding. -/
theorem provision_idempotent (env : ProvEnv)
    (st0 : List (String × ServerInfo)) (name : String)
    (domain : Option String) (region : Option String)
    (hpre : env.prereqOk = true) :
    (∀ info, st0.lookup name = some info →
      (cmd_provision env st0 name domain region).1
          = [PEv.checkPrerequisites, PEv.getServer name]
      ∧ (cmd_provision env st0 name domain region).2.1 = Except.ok ()
      ∧ countCreate (cmd_provision env st0 name domain region).1 = 0)
    ∧ (st0.lookup name = none → env.sshKey.isSome = true →
        (cmd_provision env st0 name domain region).2.1 = Except.ok ()
        ∧ (cmd_provision env (cmd_provision env st0 name domain region).2.2
            name domain region).2.1 = Except.ok ()
        ∧ countCreate ((cmd_provision env st0 name domain region).1
            ++ (cmd_provision env
                (cmd_provision env st0 name domain region).2.2
                name domain region).1) = 1) := by
  have hpre2 : ¬ env.prereqOk = false := by
    rw [hpre]
    decide
  constructor
  · intro info hlk
    rw [cmd_provision, if_neg hpre2, hlk]
    refine ⟨rfl, rfl, rfl⟩
  · intro hlk hkey
    obtain ⟨⟨k1, k2⟩, hk⟩ := Option.isSome_iff_exists.mp hkey
    have h1 : cmd_provision env st0 name domain region
        = ([PEv.checkPrerequisites, PEv.getServer name,
            PEv.createServer name (region.getD "fra1") k1]
              ++ (match domain with
                  | some _ => if env.hasDns then
                      [PEv.upsertARecord
                        (env.newServer name (region.getD "fra1")).ip]
                    else []
                  | none => [])
              ++ [PEv.setupServer name],
           Except.ok (),
           (name, env.newServer name (region.getD "fra1")) :: st0) := by
      rw [cmd_provision, if_neg hpre2, hlk, hk]
    have h2 : ((name, env.newServer name (region.getD "fra1")) :: st0).lookup
        name = some (env.newServer name (region.getD "fra1")) := by
      simp [List.lookup]
    refine ⟨?_, ?_, ?_⟩
    · rw [h1]
    · rw [h1]
      show (cmd_provision env _ name domain region).2.1 = Except.ok ()
      rw [cmd_provision, if_neg hpre2, h2]
    · rw [h1]
      show countCreate (_ ++ (cmd_provision env _ name domain region).1) = 1
      rw [cmd_provision, if_neg hpre2, h2]
      show countCreate (_ ++ [PEv.checkPrerequisites, PEv.getServer name]) = 1
      rcases domain with _ | d
      · simp [countCreate]
      · cases hd : env.hasDns <;> simp [countCreate]

/-- Witness for C5: provisioning `web1` twice from an empty state
with a concrete environment. -/
theorem provision_idempotent_witness :
    c5Env.prereqOk = true
    ∧ ([] : List (String × ServerInfo)).lookup "web1" = none
    ∧ c5Env.sshKey.isSome = true
    ∧ ((cmd_provision c5Env [] "web1" none none).2.1 = Except.ok ()
      ∧ (cmd_provision c5Env (cmd_provision c5Env [] "web1" none none).2.2
          "web1" none none).2.1 = Except.ok ()
      ∧ countCreate ((cmd_provision c5Env [] "web1" none none).1
          ++ (cmd_provision c5Env
              (cmd_provision c5Env [] "web1" none none).2.2
              "web1" none none).1) = 1) :=
  ⟨rfl, rfl, rfl,
    (provision_idempotent c5Env [] "web1" none none rfl).2 rfl rfl⟩

/-- C6: counterexample.  The input line ` yes \n` is not the exact
affirmative token `yes`, yet the destroy command proceeds: the source
compares the trimmed input, so whitespace-padded affirmations are
accepted and `destroy_server` (and the DNS record deletion) are
invoked. -/
theorem destroy_trim_counterexample :
    (" yes \n" : String) ≠ "yes"
    ∧ (cmd_destroy true " yes \n" true "web1" (some "example.com")).1
        = [DEv.destroyServer "web1", DEv.deleteARecord]
    ∧ (cmd_destroy true " yes \n" true "web1" (some "example.com")).2
        = Except.ok () := by
  refine ⟨by decide, rfl, rfl⟩

/-- C6 (amended): the destroy command aborts cleanly — success, no
`destroy_server` call, no DNS record deletion — on every confirmation
input whose whitespace-trimmed content differs from `yes`; and
`destroy_server` (or the record deletion) is only ever invoked after
an input trimming to exactly `yes` has been read. -/
theorem destroy_aborts_unless_trimmed_yes (hp : Bool) (input : String)
    (hasDns : Bool) (name : String) (domain : Option String) :
    (hp = true → trimChars input ≠ "yes" →
      cmd_destroy hp input hasDns name domain = ([], Except.ok ()))
    ∧ (∀ n, DEv.destroyServer n ∈ (cmd_destroy hp input hasDns name domain).1
        → trimChars input = "yes")
    ∧ (DEv.deleteARecord ∈ (cmd_destroy hp input hasDns name domain).1
        → trimChars input = "yes") := by
  cases hp
  case false =>
    refine ⟨fun h _ => absurd h Bool.false_ne_true, ?_, ?_⟩
    · intro n hmem
      simp [cmd_destroy] at hmem
    · intro hmem
      simp [cmd_destroy] at hmem
  case true =>
    by_cases ht : trimChars input = "yes"
    · refine ⟨fun _ hne => absurd ht hne, fun n _ => ht, fun _ => ht⟩
    · have hcd : cmd_destroy true input hasDns name domain
          = ([], Except.ok ()) := by
        rw [cmd_destroy]
        rw [if_neg (by decide)]
        rw [if_pos ht]
      refine ⟨fun _ _ => hcd, ?_, ?_⟩
      · intro n hmem
        rw [hcd] at hmem
        cases hmem
      · intro hmem
        rw [hcd] at hmem
        cases hmem

/-- Witness for C6 (amended): the input `no\n` aborts cleanly. -/
theorem destroy_aborts_unless_trimmed_yes_witness :
    trimChars "no\n" ≠ "yes"
    ∧ cmd_destroy true "no\n" true "web1" (some "example.com")
        = ([], Except.ok ()) := by
  refine ⟨by decide, ?_⟩
  exact (destroy_aborts_unless_trimmed_yes true "no\n" true "web1"
    (some "example.com")).1 rfl (by decide)

end Catapulta
